import Mathlib

/-!
Shallow embedding of the two Stylus contracts of this repository:

* `packages/stylus/your-contract/src/lib.rs` — `YourContract`, a ledger that
  tracks a greeting with per-caller change counters and performs single and
  batched native (ETH) and ERC-20 transfers, keeping cumulative totals.
* `packages/stylus/your-contract/src/portfolio_reader.rs` — `PortfolioReader`,
  a stateless read-only aggregator of token balances and metadata.

Machine integers: `alloy_primitives::U256` (ruint `Uint<256, 4>`) values are
embedded as `Nat` kept below `2 ^ 256`; ruint implements the `Add`/`AddAssign`
operators with wrapping (mod `2 ^ 256`) semantics, embedded here as `uadd`.
Addresses are the raw 20-byte contents of `alloy_primitives::Address`.
The host VM (message sender, attached value, balances, raw external calls) is
passed in explicitly; outcomes of external calls are drawn from an explicit
environment so that theorems can quantify over every outcome.  External calls
issued and events emitted are returned as explicit traces.
-/

/-- The modulus of a 256-bit EVM word: `U256` values live in `[0, U256MOD)`. -/
def U256MOD : Nat := 2 ^ 256

/-- Wrapping `U256` addition: ruint's `Add`/`AddAssign` on `U256` wrap
    modulo `2 ^ 256` on overflow. -/
def uadd (a b : Nat) : Nat := (a + b) % U256MOD

/-- An EVM address: the 20 raw bytes of `alloy_primitives::Address`. -/
abbrev Address := List Nat

/-- `Address::ZERO`, the all-zero 20-byte address. -/
def zeroAddress : Address := List.replicate 20 0

/-- Fixed-width big-endian byte encoding; `U256::to_be_bytes::<32>()` is
    `beBytes 32`. -/
def beBytes : Nat → Nat → List Nat
  | 0, _ => []
  | n + 1, v => beBytes n (v / 256) ++ [v % 256]

/-- The numeric value denoted by a big-endian byte string. -/
def beValue (l : List Nat) : Nat := l.foldl (fun acc b => acc * 256 + b) 0

/-- Lookup in the association-list embedding of a Solidity storage
    `mapping(address => uint256)`; unset keys read as zero. -/
def mapGet (m : List (Address × Nat)) (k : Address) : Nat :=
  match m.find? (fun p => p.1 == k) with
  | some p => p.2
  | none => 0

/-- Update in the association-list embedding of a storage mapping: replace the
    first entry with the given key, or append a fresh entry. -/
def mapInsert (m : List (Address × Nat)) (k : Address) (v : Nat) :
    List (Address × Nat) :=
  match m with
  | [] => [(k, v)]
  | p :: rest => if p.1 == k then (k, v) :: rest else p :: mapInsert rest k v

/-- The keys of a storage mapping. -/
def mapKeys (m : List (Address × Nat)) : List Address := m.map Prod.fst

/-- The sum of all stored values of a mapping. -/
def mapValuesSum (m : List (Address × Nat)) : Nat := (m.map Prod.snd).sum

/-- The sum, over all (distinct) keys of the mapping, of the value read at
    that key. -/
def sumOverKeys (m : List (Address × Nat)) : Nat :=
  (((mapKeys m).dedup).map (fun k => mapGet m k)).sum

/-- The events of `YourContract` (the `sol!` event block in `lib.rs`). -/
inductive Event where
  | greetingChange (greetingSetter : Address) (newGreeting : String)
      (premium : Bool) (value : Nat)
  | nativeTokenSent (fromAddr toAddr : Address) (amount : Nat)
  | batchNativeTokenSent (fromAddr : Address) (totalAmount recipientCount : Nat)
  | erc20TokenSent (token fromAddr toAddr : Address) (amount : Nat)
  | batchErc20TokenSent (token fromAddr : Address) (totalAmount recipientCount : Nat)
deriving DecidableEq

/-- External calls issued by `YourContract` through the host VM. -/
inductive ExtCall where
  | transferEth (toAddr : Address) (amount : Nat)
  | callContract (target : Address) (calldata : List Nat)
deriving DecidableEq

/-- The `Error` enum of `lib.rs` (OpenZeppelin `Ownable` errors). -/
inductive ContractError where
  | unauthorizedAccount (sender : Address)
  | invalidOwner (owner : Address)
deriving DecidableEq

/-- The host execution environment: outcomes of raw external calls and
    account balances.  `YourContract` discards the outcomes (`let _ = ...`),
    which the theorems make precise by quantifying over this environment. -/
structure ChainEnv where
  transferEthOk : Address → Nat → Bool
  callContractOk : Address → List Nat → Bool
  balance : Address → Nat
  contractAddress : Address

/-- The persistent storage of `YourContract` (the `sol_storage!` block),
    with the `Ownable` component flattened to its `owner` slot. -/
structure YCState where
  owner : Address
  greeting : String
  premium : Bool
  total_counter : Nat
  user_greeting_counter : List (Address × Nat)
  total_native_sent : Nat
  total_erc20_sent : Nat
  user_native_sent : List (Address × Nat)
  user_erc20_sent : List (Address × Nat)
deriving DecidableEq

/-- Freshly deployed storage: every slot reads as zero / empty. -/
def zeroState : YCState :=
  { owner := zeroAddress, greeting := "", premium := false, total_counter := 0,
    user_greeting_counter := [], total_native_sent := 0, total_erc20_sent := 0,
    user_native_sent := [], user_erc20_sent := [] }

namespace YourContract

/-- `YourContract::constructor`.  The embedded OpenZeppelin
    `Ownable::constructor` rejects a zero initial owner with
    `OwnableInvalidOwner` and otherwise stores the owner. -/
def constructor (st : YCState) (initial_owner : Address) :
    Except ContractError YCState :=
  if initial_owner = zeroAddress then
    Except.error (ContractError.invalidOwner zeroAddress)
  else
    Except.ok { st with
      owner := initial_owner,
      greeting := "Building Unstoppable Apps!!!",
      premium := false,
      total_counter := 0,
      total_native_sent := 0,
      total_erc20_sent := 0 }

/-- `YourContract::set_greeting` (payable): stores the new greeting,
    increments the global and per-caller counters, sets `premium` from the
    attached value, and emits `GreetingChange`. -/
def set_greeting (st : YCState) (sender : Address) (msgValue : Nat)
    (new_greeting : String) : YCState × List Event :=
  let st' := { st with
    greeting := new_greeting,
    total_counter := uadd st.total_counter 1,
    user_greeting_counter :=
      mapInsert st.user_greeting_counter sender
        (uadd (mapGet st.user_greeting_counter sender) 1),
    premium := decide (0 < msgValue) }
  (st', [Event.greetingChange sender new_greeting (decide (0 < msgValue)) msgValue])

/-- `YourContract::withdraw`: owner-only; transfers the whole contract
    balance to the owner, discarding the outcome of `transfer_eth`. -/
def withdraw (env : ChainEnv) (st : YCState) (sender : Address) :
    Except ContractError (YCState × List ExtCall) :=
  if sender = st.owner then
    let bal := env.balance env.contractAddress
    if 0 < bal then
      let _ok := env.transferEthOk st.owner bal
      Except.ok (st, [ExtCall.transferEth st.owner bal])
    else
      Except.ok (st, [])
  else
    Except.error (ContractError.unauthorizedAccount sender)

/-- `YourContract::send_native_individual` (payable): issues the transfer
    (outcome discarded), adds `amount` to the total and per-caller native
    counters, and emits `NativeTokenSent`. -/
def send_native_individual (env : ChainEnv) (st : YCState) (sender recipient : Address)
    (amount : Nat) : YCState × List Event × List ExtCall :=
  let _ok := env.transferEthOk recipient amount
  let st' := { st with
    total_native_sent := uadd st.total_native_sent amount,
    user_native_sent :=
      mapInsert st.user_native_sent sender
        (uadd (mapGet st.user_native_sent sender) amount) }
  (st', [Event.nativeTokenSent sender recipient amount],
    [ExtCall.transferEth recipient amount])

/-- The per-recipient loop of `send_native_batch`: for each `recipient` at
    index `i`, reads `amounts[i]` (a Rust `Vec` index, which panics — `none` —
    when out of bounds), issues the transfer with discarded outcome, and
    accumulates the running `total_amount` with wrapping `+=`. -/
def nativeBatchLoop (env : ChainEnv) (recipients : List Address)
    (amounts : List Nat) (i : Nat) (total : Nat) : Option (Nat × List ExtCall) :=
  match recipients with
  | [] => some (total, [])
  | recipient :: rest =>
    match amounts[i]? with
    | none => none
    | some amount =>
      let _ok := env.transferEthOk recipient amount
      match nativeBatchLoop env rest amounts (i + 1) (uadd total amount) with
      | none => none
      | some (t, calls) => some (t, ExtCall.transferEth recipient amount :: calls)

/-- `YourContract::send_native_batch` (payable): runs the per-recipient loop,
    then performs a single update of the total and per-caller native counters
    by the accumulated `total_amount` and emits one `BatchNativeTokenSent`
    event with `recipientCount = recipients.len()`.  `none` is the Rust panic
    (out-of-bounds `amounts[i]`), which reverts the call with no state
    change. -/
def send_native_batch (env : ChainEnv) (st : YCState) (sender : Address)
    (recipients : List Address) (amounts : List Nat) :
    Option (YCState × List Event × List ExtCall) :=
  match nativeBatchLoop env recipients amounts 0 0 with
  | none => none
  | some (total_amount, calls) =>
    let st' := { st with
      total_native_sent := uadd st.total_native_sent total_amount,
      user_native_sent :=
        mapInsert st.user_native_sent sender
          (uadd (mapGet st.user_native_sent sender) total_amount) }
    some (st', [Event.batchNativeTokenSent sender total_amount recipients.length],
      calls)

/-- The `transferFrom(address,address,uint256)` call payload built by
    `send_erc20_individual` and (identically, the code block is duplicated)
    by each iteration of `send_erc20_batch`: the selector `0x23b872dd`
    followed by the sender and recipient, each right-aligned in a 32-byte
    field whose high 12 bytes are zero, and the 32-byte big-endian amount. -/
def transferFromCalldata (sender recipient : Address) (amount : Nat) : List Nat :=
  [0x23, 0xb8, 0x72, 0xdd]
    ++ (List.replicate 12 0 ++ sender)
    ++ (List.replicate 12 0 ++ recipient)
    ++ beBytes 32 amount

/-- `YourContract::send_erc20_individual`: builds the `transferFrom` payload,
    issues the raw call (outcome discarded), adds `amount` to the total and
    per-caller ERC-20 counters, and emits `ERC20TokenSent`. -/
def send_erc20_individual (env : ChainEnv) (st : YCState)
    (sender token recipient : Address) (amount : Nat) :
    YCState × List Event × List ExtCall :=
  let call_data := transferFromCalldata sender recipient amount
  let _ok := env.callContractOk token call_data
  let st' := { st with
    total_erc20_sent := uadd st.total_erc20_sent amount,
    user_erc20_sent :=
      mapInsert st.user_erc20_sent sender
        (uadd (mapGet st.user_erc20_sent sender) amount) }
  (st', [Event.erc20TokenSent token sender recipient amount],
    [ExtCall.callContract token call_data])

/-- The per-recipient loop of `send_erc20_batch`: for each `recipient` at
    index `i`, reads `amounts[i]` (panics — `none` — when out of bounds),
    builds the `transferFrom` payload, issues the raw call with discarded
    outcome, and accumulates `total_amount` with wrapping `+=`. -/
def erc20BatchLoop (env : ChainEnv) (token sender : Address)
    (recipients : List Address) (amounts : List Nat) (i : Nat) (total : Nat) :
    Option (Nat × List ExtCall) :=
  match recipients with
  | [] => some (total, [])
  | recipient :: rest =>
    match amounts[i]? with
    | none => none
    | some amount =>
      let call_data := transferFromCalldata sender recipient amount
      let _ok := env.callContractOk token call_data
      match erc20BatchLoop env token sender rest amounts (i + 1) (uadd total amount) with
      | none => none
      | some (t, calls) => some (t, ExtCall.callContract token call_data :: calls)

/-- `YourContract::send_erc20_batch`: runs the per-recipient loop, then
    performs a single update of the total and per-caller ERC-20 counters by
    the accumulated `total_amount` and emits one `BatchERC20TokenSent` event
    with `recipientCount = recipients.len()`. -/
def send_erc20_batch (env : ChainEnv) (st : YCState) (sender token : Address)
    (recipients : List Address) (amounts : List Nat) :
    Option (YCState × List Event × List ExtCall) :=
  match erc20BatchLoop env token sender recipients amounts 0 0 with
  | none => none
  | some (total_amount, calls) =>
    let st' := { st with
      total_erc20_sent := uadd st.total_erc20_sent total_amount,
      user_erc20_sent :=
        mapInsert st.user_erc20_sent sender
          (uadd (mapGet st.user_erc20_sent sender) total_amount) }
    some (st', [Event.batchErc20TokenSent token sender total_amount recipients.length],
      calls)

/-- `IOwnable::transfer_ownership` via OpenZeppelin `Ownable`: owner-only,
    rejects the zero address with `OwnableInvalidOwner`. -/
def transfer_ownership (st : YCState) (sender new_owner : Address) :
    Except ContractError YCState :=
  if sender = st.owner then
    if new_owner = zeroAddress then
      Except.error (ContractError.invalidOwner zeroAddress)
    else
      Except.ok { st with owner := new_owner }
  else
    Except.error (ContractError.unauthorizedAccount sender)

/-- `IOwnable::renounce_ownership` via OpenZeppelin `Ownable`: owner-only,
    sets the owner to the zero address. -/
def renounce_ownership (st : YCState) (sender : Address) :
    Except ContractError YCState :=
  if sender = st.owner then
    Except.ok { st with owner := zeroAddress }
  else
    Except.error (ContractError.unauthorizedAccount sender)

end YourContract

/-- One invocation of a state-affecting public entrypoint of `YourContract`,
    together with its caller and host environment. -/
inductive LedgerOp where
  | setGreeting (sender : Address) (msgValue : Nat) (newGreeting : String)
  | withdrawOp (sender : Address) (env : ChainEnv)
  | nativeSingle (sender recipient : Address) (amount : Nat) (env : ChainEnv)
  | nativeBatch (sender : Address) (recipients : List Address)
      (amounts : List Nat) (env : ChainEnv)
  | erc20Single (sender token recipient : Address) (amount : Nat) (env : ChainEnv)
  | erc20Batch (sender token : Address) (recipients : List Address)
      (amounts : List Nat) (env : ChainEnv)
  | ownershipTransfer (sender new_owner : Address)
  | ownershipRenounce (sender : Address)
  | receiveEther

/-- The state transition of one public call.  `none` means the call reverted
    (a Rust panic or a returned error), leaving storage unchanged. -/
def ledgerStep (st : YCState) : LedgerOp → Option YCState
  | LedgerOp.setGreeting sender msgValue g =>
      some (YourContract.set_greeting st sender msgValue g).1
  | LedgerOp.withdrawOp sender env =>
      match YourContract.withdraw env st sender with
      | Except.ok _ => some st
      | Except.error _ => none
  | LedgerOp.nativeSingle sender recipient amount env =>
      some (YourContract.send_native_individual env st sender recipient amount).1
  | LedgerOp.nativeBatch sender recipients amounts env =>
      (YourContract.send_native_batch env st sender recipients amounts).map
        (fun r => r.1)
  | LedgerOp.erc20Single sender token recipient amount env =>
      some (YourContract.send_erc20_individual env st sender token recipient amount).1
  | LedgerOp.erc20Batch sender token recipients amounts env =>
      (YourContract.send_erc20_batch env st sender token recipients amounts).map
        (fun r => r.1)
  | LedgerOp.ownershipTransfer sender new_owner =>
      match YourContract.transfer_ownership st sender new_owner with
      | Except.ok st' => some st'
      | Except.error _ => none
  | LedgerOp.ownershipRenounce sender =>
      match YourContract.renounce_ownership st sender with
      | Except.ok st' => some st'
      | Except.error _ => none
  | LedgerOp.receiveEther => some st

/-- The states of `YourContract` reachable from a fresh deployment by any
    sequence of public calls. -/
inductive Reachable : YCState → Prop
  | boot (initial_owner : Address) (st : YCState)
      (h : YourContract.constructor zeroState initial_owner = Except.ok st) :
      Reachable st
  | next (st : YCState) (op : LedgerOp) (st' : YCState)
      (hst : Reachable st) (hstep : ledgerStep st op = some st') : Reachable st'

/-- The increment applied by an operation to `total_counter`. -/
def greetingDelta : LedgerOp → Nat
  | LedgerOp.setGreeting _ _ _ => 1
  | _ => 0

/-- The increment applied by an operation to `total_native_sent` (for a
    batch: the sum of the amounts actually consumed by the loop). -/
def nativeDelta : LedgerOp → Nat
  | LedgerOp.nativeSingle _ _ amount _ => amount
  | LedgerOp.nativeBatch _ recipients amounts _ =>
      ((amounts.take recipients.length).sum)
  | _ => 0

/-- The increment applied by an operation to `total_erc20_sent`. -/
def erc20Delta : LedgerOp → Nat
  | LedgerOp.erc20Single _ _ _ amount _ => amount
  | LedgerOp.erc20Batch _ _ recipients amounts _ =>
      ((amounts.take recipients.length).sum)
  | _ => 0

/-- The host environment of `PortfolioReader`: the outcome of each external
    ERC-20 view call (`none` = the call failed, e.g. no code at the target or
    the function is not implemented), plus native balances and code sizes. -/
structure TokenEnv where
  balanceOfRes : Address → Address → Option Nat
  decimalsRes : Address → Option Nat
  symbolRes : Address → Option String
  nameRes : Address → Option String
  ethBalance : Address → Nat
  codeSize : Address → Nat

namespace PortfolioReader

/-- `PortfolioReader::get_eth_balance`. -/
def get_eth_balance (env : TokenEnv) (user : Address) : Nat :=
  env.ethBalance user

/-- `PortfolioReader::get_token_balance`: `Ok(balance)` on success, `Ok(0)`
    when the external call fails; the `Err` branch of the declared result
    type is never produced. -/
def get_token_balance (env : TokenEnv) (token user : Address) :
    Except (List Nat) Nat :=
  match env.balanceOfRes token user with
  | some balance => Except.ok balance
  | none => Except.ok 0

/-- `PortfolioReader::get_token_decimals`: `Ok(decimals)` on success,
    `Ok(18)` when the external call fails. -/
def get_token_decimals (env : TokenEnv) (token : Address) :
    Except (List Nat) Nat :=
  match env.decimalsRes token with
  | some decimals => Except.ok decimals
  | none => Except.ok 18

/-- `PortfolioReader::get_token_symbol`: `Ok(symbol)` on success,
    `Ok("UNKNOWN")` when the external call fails. -/
def get_token_symbol (env : TokenEnv) (token : Address) :
    Except (List Nat) String :=
  match env.symbolRes token with
  | some symbol => Except.ok symbol
  | none => Except.ok ("UNKNOWN")

/-- `PortfolioReader::get_token_name`: `Ok(name)` on success,
    `Ok("Unknown Token")` when the external call fails. -/
def get_token_name (env : TokenEnv) (token : Address) :
    Except (List Nat) String :=
  match env.nameRes token with
  | some name => Except.ok name
  | none => Except.ok ("Unknown Token")

/-- `PortfolioReader::batch_get_balances`: one balance per input token, in
    input order, each independently defaulted on failure. -/
def batch_get_balances (env : TokenEnv) (tokens : List Address) (user : Address) :
    List Nat :=
  match tokens with
  | [] => []
  | token :: rest =>
    let balance :=
      match get_token_balance env token user with
      | Except.ok bal => bal
      | Except.error _ => 0
    balance :: batch_get_balances env rest user

/-- `PortfolioReader::batch_get_token_info`: one
    `(balance, decimals, symbol, name)` tuple per input token, in input
    order, each field independently defaulted on failure. -/
def batch_get_token_info (env : TokenEnv) (tokens : List Address) (user : Address) :
    List (Nat × Nat × String × String) :=
  match tokens with
  | [] => []
  | token :: rest =>
    let balance :=
      match get_token_balance env token user with
      | Except.ok bal => bal
      | Except.error _ => 0
    let decimals :=
      match get_token_decimals env token with
      | Except.ok dec => dec
      | Except.error _ => 18
    let symbol :=
      match get_token_symbol env token with
      | Except.ok sym => sym
      | Except.error _ => ("UNKNOWN")
    let name :=
      match get_token_name env token with
      | Except.ok n => n
      | Except.error _ => ("Unknown Token")
    (balance, decimals, symbol, name) :: batch_get_token_info env rest user

/-- `PortfolioReader::get_portfolio`: the user's native balance together with
    one `(tokenAddress, balance, decimals, symbol, name)` tuple per input
    token, in input order. -/
def get_portfolio (env : TokenEnv) (tokens : List Address) (user : Address) :
    Nat × List (Address × Nat × Nat × String × String) :=
  let eth_balance := get_eth_balance env user
  let token_info := get_portfolio_loop env tokens user
  (eth_balance, token_info)
where
  /-- The per-token loop body of `get_portfolio`. -/
  get_portfolio_loop (env : TokenEnv) (tokens : List Address) (user : Address) :
      List (Address × Nat × Nat × String × String) :=
    match tokens with
    | [] => []
    | token :: rest =>
      let balance :=
        match get_token_balance env token user with
        | Except.ok bal => bal
        | Except.error _ => 0
      let decimals :=
        match get_token_decimals env token with
        | Except.ok dec => dec
        | Except.error _ => 18
      let symbol :=
        match get_token_symbol env token with
        | Except.ok sym => sym
        | Except.error _ => ("UNKNOWN")
      let name :=
        match get_token_name env token with
        | Except.ok n => n
        | Except.error _ => ("Unknown Token")
      (token, balance, decimals, symbol, name) :: get_portfolio_loop env rest user

/-- `PortfolioReader::batch_is_contract`: one boolean per input address, in
    input order, true iff executable code is present at that address. -/
def batch_is_contract (env : TokenEnv) (addresses : List Address) : List Bool :=
  match addresses with
  | [] => []
  | addr :: rest => decide (0 < env.codeSize addr) :: batch_is_contract env rest

end PortfolioReader

/-- The per-token fallback-or-result tuple that §4.3 of the specification
    promises for each token: the queried value when the external call
    succeeds, otherwise the documented fallback
    `(0, 18, "UNKNOWN", "Unknown Token")`. -/
def fallbackInfo (env : TokenEnv) (user token : Address) :
    Nat × Nat × String × String :=
  ((env.balanceOfRes token user).getD 0, (env.decimalsRes token).getD 18,
    (env.symbolRes token).getD ("UNKNOWN"),
    (env.nameRes token).getD ("Unknown Token"))

/-- A concrete environment in which every external call succeeds trivially. -/
def allOkEnv : ChainEnv :=
  { transferEthOk := fun _ _ => true, callContractOk := fun _ _ => true,
    balance := fun _ => 0, contractAddress := zeroAddress }

/-- A concrete environment in which every external call fails. -/
def allFailEnv : ChainEnv :=
  { transferEthOk := fun _ _ => false, callContractOk := fun _ _ => false,
    balance := fun _ => 0, contractAddress := zeroAddress }

/-- A concrete reader environment in which every external token query fails
    (e.g. no code is deployed at any queried address). -/
def emptyTokenEnv : TokenEnv :=
  { balanceOfRes := fun _ _ => none, decimalsRes := fun _ => none,
    symbolRes := fun _ => none, nameRes := fun _ => none,
    ethBalance := fun _ => 0, codeSize := fun _ => 0 }

/-- A concrete nontrivial address. -/
def addr1 : Address := List.replicate 20 1

/-- A second concrete address. -/
def addr2 : Address := List.replicate 20 2

/-- A third concrete address. -/
def addr3 : Address := List.replicate 20 3

/-- The storage produced by a successful `constructor(addr1)` on a fresh
    deployment. -/
def ctorState : YCState :=
  { owner := addr1, greeting := "Building Unstoppable Apps!!!", premium := false,
    total_counter := 0, user_greeting_counter := [], total_native_sent := 0,
    total_erc20_sent := 0, user_native_sent := [], user_erc20_sent := [] }

/-- Every value stored in the mapping is a reduced 256-bit word. -/
def mapValuesLt (m : List (Address × Nat)) : Prop :=
  ∀ p ∈ m, p.2 < U256MOD

/-- The structural well-formedness that every reachable `YourContract` state
    enjoys: mappings have distinct keys and reduced values, totals are
    reduced 256-bit words, and each total agrees with the sum of the values
    of its per-caller mapping modulo `2 ^ 256`. -/
def GoodState (st : YCState) : Prop :=
  (mapKeys st.user_greeting_counter).Nodup ∧
  (mapKeys st.user_native_sent).Nodup ∧
  (mapKeys st.user_erc20_sent).Nodup ∧
  mapValuesLt st.user_greeting_counter ∧
  mapValuesLt st.user_native_sent ∧
  mapValuesLt st.user_erc20_sent ∧
  st.total_counter < U256MOD ∧
  st.total_native_sent < U256MOD ∧
  st.total_erc20_sent < U256MOD ∧
  st.total_counter = mapValuesSum st.user_greeting_counter % U256MOD ∧
  st.total_native_sent = mapValuesSum st.user_native_sent % U256MOD ∧
  st.total_erc20_sent = mapValuesSum st.user_erc20_sent % U256MOD

/-- How one public call affects one counter family (a running total together
    with its per-caller mapping): either the family is untouched, or the
    total is bumped by `d` with wrapping addition and some caller's entry is
    bumped by the same `d` with wrapping addition. -/
def FamilyStep (total total' : Nat) (m m' : List (Address × Nat)) (d : Nat) : Prop :=
  (total' = total ∧ m' = m ∧ d = 0) ∨
  (total' = uadd total d ∧
    ∃ s, m' = mapInsert m s (uadd (mapGet m s) d))

/-- Sequential execution of a list of `set_greeting` calls, each given as
    `(caller, attached value, new greeting)`. -/
def applyGreetings (st : YCState) (calls : List (Address × Nat × String)) : YCState :=
  match calls with
  | [] => st
  | c :: rest => applyGreetings (YourContract.set_greeting st c.1 c.2.1 c.2.2).1 rest

/-- How many of the listed `set_greeting` calls were made by `caller`. -/
def callsBy (caller : Address) (calls : List (Address × Nat × String)) : Nat :=
  (calls.filter (fun c => c.1 == caller)).length

/-- The state after `send_native_individual(addr2, 2^256 - 1)` from a fresh
    deployment owned by `addr1`. -/
def stWrapA : YCState :=
  (YourContract.send_native_individual allOkEnv ctorState addr1 addr2 (U256MOD - 1)).1

/-- The state after a further `send_native_individual(addr2, 1)`: the native
    counters wrap around to zero. -/
def stWrapB : YCState :=
  (YourContract.send_native_individual allOkEnv stWrapA addr1 addr2 1).1

/-! ### Arithmetic and byte-encoding lemmas -/

theorem U256MOD_pos : 0 < U256MOD := by
  simp [U256MOD]

theorem uadd_lt (a b : Nat) : uadd a b < U256MOD :=
  Nat.mod_lt _ U256MOD_pos

theorem uadd_eq (a b : Nat) : uadd a b = (a + b) % U256MOD := rfl

theorem beBytes_length (n v : Nat) : (beBytes n v).length = n := by
  induction n generalizing v with
  | zero => rfl
  | succ n ih => simp [beBytes, ih]

theorem beValue_beBytes (n v : Nat) : beValue (beBytes n v) = v % 256 ^ n := by
  induction n generalizing v with
  | zero => simp [beBytes, beValue, Nat.mod_one]
  | succ n ih =>
    have happ : beValue (beBytes n (v / 256) ++ [v % 256])
        = beValue (beBytes n (v / 256)) * 256 + v % 256 := by
      unfold beValue
      rw [List.foldl_append]
      rfl
    have hpow : (256 : Nat) ^ (n + 1) = 256 * 256 ^ n := by
      rw [pow_succ, Nat.mul_comm]
    rw [beBytes, happ, ih, hpow, Nat.mod_mul]
    omega

/-! ### Storage-mapping lemmas -/

theorem mapGet_nil (k : Address) : mapGet [] k = 0 := rfl

theorem mapGet_cons (p : Address × Nat) (m : List (Address × Nat)) (k : Address) :
    mapGet (p :: m) k = if p.1 = k then p.2 else mapGet m k := by
  by_cases h : p.1 = k <;>
    simp [mapGet, List.find?_cons, h]

theorem mapGet_mapInsert_self (m : List (Address × Nat)) (k : Address) (v : Nat) :
    mapGet (mapInsert m k v) k = v := by
  induction m with
  | nil => simp [mapInsert, mapGet_cons]
  | cons p rest ih =>
    by_cases h : p.1 = k
    · simp [mapInsert, h, mapGet_cons]
    · simp [mapInsert, h, mapGet_cons, ih]

theorem mapGet_mapInsert_ne (m : List (Address × Nat)) (k a : Address) (v : Nat)
    (h : a ≠ k) : mapGet (mapInsert m k v) a = mapGet m a := by
  induction m with
  | nil => simp [mapInsert, mapGet_cons, mapGet_nil, Ne.symm h]
  | cons p rest ih =>
    by_cases hp : p.1 = k
    · have hpa : ¬ p.1 = a := fun he => h (he.symm.trans hp)
      simp [mapInsert, hp, mapGet_cons, Ne.symm h, hpa]
    · simp [mapInsert, hp, mapGet_cons, ih]

theorem mapValuesSum_mapInsert (m : List (Address × Nat)) (k : Address) (v : Nat) :
    mapValuesSum (mapInsert m k v) + mapGet m k = mapValuesSum m + v := by
  induction m with
  | nil => simp [mapInsert, mapValuesSum, mapGet_nil]
  | cons p rest ih =>
    by_cases hp : p.1 = k
    · simp only [mapInsert, hp, beq_self_eq_true, if_true, mapValuesSum,
        List.map_cons, List.sum_cons, mapGet_cons]
      simp [mapValuesSum] at ih ⊢
      omega
    · simp only [mapInsert, mapValuesSum, List.map_cons, List.sum_cons,
        mapGet_cons, hp, if_false]
      simp only [beq_iff_eq, hp, if_false]
      simp [mapValuesSum] at ih ⊢
      omega

theorem mapKeys_mapInsert (m : List (Address × Nat)) (k : Address) (v : Nat) :
    mapKeys (mapInsert m k v)
      = if k ∈ mapKeys m then mapKeys m else mapKeys m ++ [k] := by
  induction m with
  | nil => simp [mapInsert, mapKeys]
  | cons p rest ih =>
    by_cases hp : p.1 = k
    · simp [mapInsert, hp, mapKeys]
    · have hk : ¬ k = p.1 := fun he => hp he.symm
      simp only [mapInsert, beq_iff_eq, hp, if_false, mapKeys, List.map_cons,
        List.mem_cons, hk, false_or]
      simp only [mapKeys] at ih
      rw [ih]
      by_cases hmem : k ∈ List.map Prod.fst rest
      · simp [hmem]
      · simp [hmem]

theorem mapKeysNodup_mapInsert (m : List (Address × Nat)) (k : Address) (v : Nat)
    (h : (mapKeys m).Nodup) : (mapKeys (mapInsert m k v)).Nodup := by
  rw [mapKeys_mapInsert]
  by_cases hmem : k ∈ mapKeys m
  · simpa [hmem] using h
  · simp [hmem, List.nodup_append, h]

theorem mapValuesLt_mapInsert (m : List (Address × Nat)) (k : Address) (v : Nat)
    (hm : mapValuesLt m) (hv : v < U256MOD) : mapValuesLt (mapInsert m k v) := by
  induction m with
  | nil =>
    intro p hp
    simp [mapInsert] at hp
    simp [hp, hv]
  | cons q rest ih =>
    have hq : q.2 < U256MOD := hm q (by simp)
    have hrest : mapValuesLt rest := fun p hp => hm p (by simp [hp])
    by_cases hqk : q.1 = k
    · intro p hp
      simp [mapInsert, hqk] at hp
      rcases hp with hp | hp
      · simp [hp, hv]
      · exact hrest p hp
    · intro p hp
      simp [mapInsert, hqk] at hp
      rcases hp with hp | hp
      · simp [hp, hq]
      · exact ih hrest p hp

theorem mapGet_lt (m : List (Address × Nat)) (k : Address)
    (hm : mapValuesLt m) : mapGet m k < U256MOD := by
  unfold mapGet
  cases hfind : m.find? (fun p => p.1 == k) with
  | none => exact U256MOD_pos
  | some p => exact hm p (List.mem_of_find?_eq_some hfind)

theorem mapGet_vals (m : List (Address × Nat)) (h : (mapKeys m).Nodup) :
    (mapKeys m).map (fun k => mapGet m k) = m.map Prod.snd := by
  induction m with
  | nil => rfl
  | cons p rest ih =>
    simp only [mapKeys, List.map_cons] at h
    have hcons := List.nodup_cons.mp h
    have hnot : p.1 ∉ List.map Prod.fst rest := hcons.1
    have hrest : (mapKeys rest).Nodup := by
      simpa [mapKeys] using hcons.2
    have hmap : List.map (fun k => mapGet (p :: rest) k) (List.map Prod.fst rest)
        = List.map (fun k => mapGet rest k) (List.map Prod.fst rest) :=
      List.map_congr_left (fun a ha => by
        have hne : ¬ p.1 = a := fun he => hnot (he ▸ ha)
        simp [mapGet_cons, hne])
    have ihh := ih hrest
    simp only [mapKeys, List.map_cons] at ihh ⊢
    rw [hmap, ihh, mapGet_cons]
    simp

theorem sumOverKeys_eq_mapValuesSum (m : List (Address × Nat))
    (h : (mapKeys m).Nodup) : sumOverKeys m = mapValuesSum m := by
  unfold sumOverKeys mapValuesSum
  rw [List.Nodup.dedup h, mapGet_vals m h]

/-! ### Batch-loop lemmas -/

theorem nativeBatchLoop_ok (env : ChainEnv) (recipients : List Address) :
    ∀ (amounts : List Nat) (i total : Nat), total < U256MOD →
      i + recipients.length ≤ amounts.length →
      YourContract.nativeBatchLoop env recipients amounts i total =
        some ((total + ((amounts.drop i).take recipients.length).sum) % U256MOD,
          (recipients.zip ((amounts.drop i).take recipients.length)).map
            (fun p => ExtCall.transferEth p.1 p.2)) := by
  induction recipients with
  | nil =>
    intro amounts i total htot _
    simp [YourContract.nativeBatchLoop, Nat.mod_eq_of_lt htot]
  | cons r rest ih =>
    intro amounts i total htot hlen
    simp only [List.length_cons] at hlen
    have hi : i < amounts.length := by omega
    have hdrop : amounts.drop i = amounts[i] :: amounts.drop (i + 1) :=
      (List.getElem_cons_drop amounts i hi).symm
    have hrec := ih amounts (i + 1) (uadd total amounts[i]) (uadd_lt _ _) (by omega)
    simp only [YourContract.nativeBatchLoop, List.getElem?_eq_getElem hi, hrec,
      hdrop, List.length_cons, List.take_succ_cons, List.sum_cons,
      List.zip_cons_cons, List.map_cons]
    rw [uadd_eq, Nat.mod_add_mod, Nat.add_assoc]

theorem nativeBatchLoop_none (env : ChainEnv) (recipients : List Address) :
    ∀ (amounts : List Nat) (i total : Nat), i ≤ amounts.length →
      amounts.length < i + recipients.length →
      YourContract.nativeBatchLoop env recipients amounts i total = none := by
  induction recipients with
  | nil =>
    intro amounts i total h1 h2
    simp only [List.length_nil, Nat.add_zero] at h2
    exact absurd h1 (by omega)
  | cons r rest ih =>
    intro amounts i total h1 h2
    simp only [List.length_cons] at h2
    by_cases hi : i < amounts.length
    · have hrec := ih amounts (i + 1) (uadd total amounts[i]) (by omega) (by omega)
      simp only [YourContract.nativeBatchLoop, List.getElem?_eq_getElem hi, hrec]
    · have hle : amounts.length ≤ i := by omega
      simp only [YourContract.nativeBatchLoop, List.getElem?_eq_none hle]

theorem nativeBatchLoop_some_le (env : ChainEnv) (recipients : List Address) :
    ∀ (amounts : List Nat) (i total : Nat) (r : Nat × List ExtCall),
      YourContract.nativeBatchLoop env recipients amounts i total = some r →
      i + recipients.length ≤ amounts.length ∨ recipients = [] := by
  induction recipients with
  | nil => intro amounts i total r _; exact Or.inr rfl
  | cons hd rest ih =>
    intro amounts i total r h
    by_cases hi : i < amounts.length
    · simp only [YourContract.nativeBatchLoop, List.getElem?_eq_getElem hi] at h
      cases hrec : YourContract.nativeBatchLoop env rest amounts (i + 1)
          (uadd total amounts[i]) with
      | none => rw [hrec] at h; exact absurd h (by simp)
      | some r' =>
        rcases ih amounts (i + 1) (uadd total amounts[i]) r' hrec with hle | hnil
        · left; simp only [List.length_cons]; omega
        · left; simp only [hnil, List.length_cons, List.length_nil]; omega
    · have hle : amounts.length ≤ i := by omega
      simp only [YourContract.nativeBatchLoop, List.getElem?_eq_none hle] at h
      exact absurd h (by simp)

theorem erc20BatchLoop_ok (env : ChainEnv) (token sender : Address)
    (recipients : List Address) :
    ∀ (amounts : List Nat) (i total : Nat), total < U256MOD →
      i + recipients.length ≤ amounts.length →
      YourContract.erc20BatchLoop env token sender recipients amounts i total =
        some ((total + ((amounts.drop i).take recipients.length).sum) % U256MOD,
          (recipients.zip ((amounts.drop i).take recipients.length)).map
            (fun p => ExtCall.callContract token
              (YourContract.transferFromCalldata sender p.1 p.2))) := by
  induction recipients with
  | nil =>
    intro amounts i total htot _
    simp [YourContract.erc20BatchLoop, Nat.mod_eq_of_lt htot]
  | cons r rest ih =>
    intro amounts i total htot hlen
    simp only [List.length_cons] at hlen
    have hi : i < amounts.length := by omega
    have hdrop : amounts.drop i = amounts[i] :: amounts.drop (i + 1) :=
      (List.getElem_cons_drop amounts i hi).symm
    have hrec := ih amounts (i + 1) (uadd total amounts[i]) (uadd_lt _ _) (by omega)
    simp only [YourContract.erc20BatchLoop, List.getElem?_eq_getElem hi, hrec,
      hdrop, List.length_cons, List.take_succ_cons, List.sum_cons,
      List.zip_cons_cons, List.map_cons]
    rw [uadd_eq, Nat.mod_add_mod, Nat.add_assoc]

theorem erc20BatchLoop_none (env : ChainEnv) (token sender : Address)
    (recipients : List Address) :
    ∀ (amounts : List Nat) (i total : Nat), i ≤ amounts.length →
      amounts.length < i + recipients.length →
      YourContract.erc20BatchLoop env token sender recipients amounts i total = none := by
  induction recipients with
  | nil =>
    intro amounts i total h1 h2
    simp only [List.length_nil, Nat.add_zero] at h2
    exact absurd h1 (by omega)
  | cons r rest ih =>
    intro amounts i total h1 h2
    simp only [List.length_cons] at h2
    by_cases hi : i < amounts.length
    · have hrec := ih amounts (i + 1) (uadd total amounts[i]) (by omega) (by omega)
      simp only [YourContract.erc20BatchLoop, List.getElem?_eq_getElem hi, hrec]
    · have hle : amounts.length ≤ i := by omega
      simp only [YourContract.erc20BatchLoop, List.getElem?_eq_none hle]

theorem erc20BatchLoop_some_le (env : ChainEnv) (token sender : Address)
    (recipients : List Address) :
    ∀ (amounts : List Nat) (i total : Nat) (r : Nat × List ExtCall),
      YourContract.erc20BatchLoop env token sender recipients amounts i total = some r →
      i + recipients.length ≤ amounts.length ∨ recipients = [] := by
  induction recipients with
  | nil => intro amounts i total r _; exact Or.inr rfl
  | cons hd rest ih =>
    intro amounts i total r h
    by_cases hi : i < amounts.length
    · simp only [YourContract.erc20BatchLoop, List.getElem?_eq_getElem hi] at h
      cases hrec : YourContract.erc20BatchLoop env token sender rest amounts (i + 1)
          (uadd total amounts[i]) with
      | none => rw [hrec] at h; exact absurd h (by simp)
      | some r' =>
        rcases ih amounts (i + 1) (uadd total amounts[i]) r' hrec with hle | hnil
        · left; simp only [List.length_cons]; omega
        · left; simp only [hnil, List.length_cons, List.length_nil]; omega
    · have hle : amounts.length ≤ i := by omega
      simp only [YourContract.erc20BatchLoop, List.getElem?_eq_none hle] at h
      exact absurd h (by simp)

theorem send_native_batch_ok (env : ChainEnv) (st : YCState) (sender : Address)
    (recipients : List Address) (amounts : List Nat)
    (hlen : recipients.length ≤ amounts.length) :
    YourContract.send_native_batch env st sender recipients amounts =
      some ({ st with
          total_native_sent :=
            (st.total_native_sent + (amounts.take recipients.length).sum) % U256MOD,
          user_native_sent :=
            mapInsert st.user_native_sent sender
              ((mapGet st.user_native_sent sender
                + (amounts.take recipients.length).sum) % U256MOD) },
        [Event.batchNativeTokenSent sender
          ((amounts.take recipients.length).sum % U256MOD) recipients.length],
        (recipients.zip (amounts.take recipients.length)).map
          (fun p => ExtCall.transferEth p.1 p.2)) := by
  have hloop := nativeBatchLoop_ok env recipients amounts 0 0 U256MOD_pos (by omega)
  simp only [List.drop_zero, Nat.zero_add] at hloop
  simp only [YourContract.send_native_batch, hloop, uadd_eq, Nat.add_mod_mod]

theorem send_erc20_batch_ok (env : ChainEnv) (st : YCState) (sender token : Address)
    (recipients : List Address) (amounts : List Nat)
    (hlen : recipients.length ≤ amounts.length) :
    YourContract.send_erc20_batch env st sender token recipients amounts =
      some ({ st with
          total_erc20_sent :=
            (st.total_erc20_sent + (amounts.take recipients.length).sum) % U256MOD,
          user_erc20_sent :=
            mapInsert st.user_erc20_sent sender
              ((mapGet st.user_erc20_sent sender
                + (amounts.take recipients.length).sum) % U256MOD) },
        [Event.batchErc20TokenSent token sender
          ((amounts.take recipients.length).sum % U256MOD) recipients.length],
        (recipients.zip (amounts.take recipients.length)).map
          (fun p => ExtCall.callContract token
            (YourContract.transferFromCalldata sender p.1 p.2))) := by
  have hloop := erc20BatchLoop_ok env token sender recipients amounts 0 0 U256MOD_pos
    (by omega)
  simp only [List.drop_zero, Nat.zero_add] at hloop
  simp only [YourContract.send_erc20_batch, hloop, uadd_eq, Nat.add_mod_mod]

/-! ### Step characterization and invariant preservation -/

theorem constructor_ok (st0 : YCState) (o : Address) (st : YCState)
    (h : YourContract.constructor st0 o = Except.ok st) :
    o ≠ zeroAddress ∧
      st = { st0 with
        owner := o,
        greeting := "Building Unstoppable Apps!!!",
        premium := false,
        total_counter := 0,
        total_native_sent := 0,
        total_erc20_sent := 0 } := by
  by_cases hz : o = zeroAddress
  · simp [YourContract.constructor, hz] at h
  · refine ⟨hz, ?_⟩
    simp only [YourContract.constructor, if_neg hz, Except.ok.injEq] at h
    exact h.symm

theorem ledgerStep_family (st : YCState) (op : LedgerOp) (st' : YCState)
    (h : ledgerStep st op = some st') :
    FamilyStep st.total_counter st'.total_counter
      st.user_greeting_counter st'.user_greeting_counter (greetingDelta op) ∧
    FamilyStep st.total_native_sent st'.total_native_sent
      st.user_native_sent st'.user_native_sent (nativeDelta op) ∧
    FamilyStep st.total_erc20_sent st'.total_erc20_sent
      st.user_erc20_sent st'.user_erc20_sent (erc20Delta op) := by
  cases op with
  | setGreeting sender msgValue g =>
    simp only [ledgerStep, YourContract.set_greeting, Option.some.injEq] at h
    subst h
    exact ⟨Or.inr ⟨rfl, sender, rfl⟩, Or.inl ⟨rfl, rfl, rfl⟩, Or.inl ⟨rfl, rfl, rfl⟩⟩
  | withdrawOp sender env =>
    simp only [ledgerStep] at h
    cases hw : YourContract.withdraw env st sender with
    | ok r =>
      rw [hw] at h
      simp only [Option.some.injEq] at h
      subst h
      exact ⟨Or.inl ⟨rfl, rfl, rfl⟩, Or.inl ⟨rfl, rfl, rfl⟩, Or.inl ⟨rfl, rfl, rfl⟩⟩
    | error e =>
      rw [hw] at h
      cases h
  | nativeSingle sender recipient amount env =>
    simp only [ledgerStep, YourContract.send_native_individual, Option.some.injEq] at h
    subst h
    exact ⟨Or.inl ⟨rfl, rfl, rfl⟩, Or.inr ⟨rfl, sender, rfl⟩, Or.inl ⟨rfl, rfl, rfl⟩⟩
  | nativeBatch sender recipients amounts env =>
    simp only [ledgerStep, Option.map_eq_some'] at h
    rcases h with ⟨r, hb, hr⟩
    by_cases hlen : recipients.length ≤ amounts.length
    · rw [send_native_batch_ok env st sender recipients amounts hlen] at hb
      simp only [Option.some.injEq] at hb
      subst hb
      subst hr
      exact ⟨Or.inl ⟨rfl, rfl, rfl⟩, Or.inr ⟨rfl, sender, rfl⟩, Or.inl ⟨rfl, rfl, rfl⟩⟩
    · have hnone : YourContract.nativeBatchLoop env recipients amounts 0 0 = none :=
        nativeBatchLoop_none env recipients amounts 0 0 (by omega) (by omega)
      simp only [YourContract.send_native_batch, hnone] at hb
      exact absurd hb (by simp)
  | erc20Single sender token recipient amount env =>
    simp only [ledgerStep, YourContract.send_erc20_individual, Option.some.injEq] at h
    subst h
    exact ⟨Or.inl ⟨rfl, rfl, rfl⟩, Or.inl ⟨rfl, rfl, rfl⟩, Or.inr ⟨rfl, sender, rfl⟩⟩
  | erc20Batch sender token recipients amounts env =>
    simp only [ledgerStep, Option.map_eq_some'] at h
    rcases h with ⟨r, hb, hr⟩
    by_cases hlen : recipients.length ≤ amounts.length
    · rw [send_erc20_batch_ok env st sender token recipients amounts hlen] at hb
      simp only [Option.some.injEq] at hb
      subst hb
      subst hr
      exact ⟨Or.inl ⟨rfl, rfl, rfl⟩, Or.inl ⟨rfl, rfl, rfl⟩, Or.inr ⟨rfl, sender, rfl⟩⟩
    · have hnone : YourContract.erc20BatchLoop env token sender recipients amounts 0 0
          = none :=
        erc20BatchLoop_none env token sender recipients amounts 0 0 (by omega) (by omega)
      simp only [YourContract.send_erc20_batch, hnone] at hb
      exact absurd hb (by simp)
  | ownershipTransfer sender new_owner =>
    simp only [ledgerStep, YourContract.transfer_ownership] at h
    by_cases hs : sender = st.owner
    · by_cases hz : new_owner = zeroAddress
      · rw [if_pos hs, if_pos hz] at h
        cases h
      · rw [if_pos hs, if_neg hz] at h
        simp only [Option.some.injEq] at h
        subst h
        exact ⟨Or.inl ⟨rfl, rfl, rfl⟩, Or.inl ⟨rfl, rfl, rfl⟩, Or.inl ⟨rfl, rfl, rfl⟩⟩
    · rw [if_neg hs] at h
      cases h
  | ownershipRenounce sender =>
    simp only [ledgerStep, YourContract.renounce_ownership] at h
    by_cases hs : sender = st.owner
    · rw [if_pos hs] at h
      simp only [Option.some.injEq] at h
      subst h
      exact ⟨Or.inl ⟨rfl, rfl, rfl⟩, Or.inl ⟨rfl, rfl, rfl⟩, Or.inl ⟨rfl, rfl, rfl⟩⟩
    · rw [if_neg hs] at h
      cases h
  | receiveEther =>
    simp only [ledgerStep, Option.some.injEq] at h
    subst h
    exact ⟨Or.inl ⟨rfl, rfl, rfl⟩, Or.inl ⟨rfl, rfl, rfl⟩, Or.inl ⟨rfl, rfl, rfl⟩⟩

theorem familyStep_good (total total' : Nat) (m m' : List (Address × Nat)) (d : Nat)
    (hf : FamilyStep total total' m m' d)
    (hnodup : (mapKeys m).Nodup) (hlt : mapValuesLt m) (htot : total < U256MOD)
    (hsum : total = mapValuesSum m % U256MOD) :
    (mapKeys m').Nodup ∧ mapValuesLt m' ∧ total' < U256MOD ∧
      total' = mapValuesSum m' % U256MOD := by
  rcases hf with ⟨h1, h2, _⟩ | ⟨h1, s, h2⟩
  · exact ⟨h2 ▸ hnodup, h2 ▸ hlt, h1 ▸ htot, by rw [h1, h2, hsum]⟩
  · subst h1
    subst h2
    refine ⟨mapKeysNodup_mapInsert m s _ hnodup,
      mapValuesLt_mapInsert m s _ hlt (uadd_lt _ _), uadd_lt _ _, ?_⟩
    have hins := mapValuesSum_mapInsert m s (uadd (mapGet m s) d)
    have e1 : mapValuesSum m + (mapGet m s + d) = (mapValuesSum m + d) + mapGet m s := by
      omega
    have hmod : (mapValuesSum (mapInsert m s (uadd (mapGet m s) d)) + mapGet m s) % U256MOD
        = ((mapValuesSum m + d) + mapGet m s) % U256MOD := by
      rw [hins, uadd_eq, Nat.add_mod_mod, e1]
    have hcan := Nat.ModEq.add_right_cancel' (mapGet m s) hmod
    rw [uadd_eq, hsum, Nat.mod_add_mod, ← hcan]

theorem familyStep_mono (total total' : Nat) (m m' : List (Address × Nat)) (d : Nat)
    (hf : FamilyStep total total' m m' d) :
    (total + d < U256MOD → total ≤ total') ∧
    (∀ a, mapGet m a + d < U256MOD → mapGet m a ≤ mapGet m' a) := by
  rcases hf with ⟨h1, h2, _⟩ | ⟨h1, s, h2⟩
  · exact ⟨fun _ => h1 ▸ Nat.le_refl _, fun a _ => h2 ▸ Nat.le_refl _⟩
  · constructor
    · intro hov
      rw [h1, uadd_eq, Nat.mod_eq_of_lt hov]
      omega
    · intro a hov
      by_cases ha : a = s
      · subst ha
        rw [h2, mapGet_mapInsert_self, uadd_eq, Nat.mod_eq_of_lt hov]
        omega
      · rw [h2, mapGet_mapInsert_ne m s a _ ha]

theorem ledgerStep_good (st : YCState) (op : LedgerOp) (st' : YCState)
    (hg : GoodState st) (h : ledgerStep st op = some st') : GoodState st' := by
  obtain ⟨hn1, hn2, hn3, hl1, hl2, hl3, ht1, ht2, ht3, hs1, hs2, hs3⟩ := hg
  obtain ⟨hf1, hf2, hf3⟩ := ledgerStep_family st op st' h
  obtain ⟨a1, b1, c1, d1⟩ := familyStep_good _ _ _ _ _ hf1 hn1 hl1 ht1 hs1
  obtain ⟨a2, b2, c2, d2⟩ := familyStep_good _ _ _ _ _ hf2 hn2 hl2 ht2 hs2
  obtain ⟨a3, b3, c3, d3⟩ := familyStep_good _ _ _ _ _ hf3 hn3 hl3 ht3 hs3
  exact ⟨a1, a2, a3, b1, b2, b3, c1, c2, c3, d1, d2, d3⟩

theorem reachable_good (st : YCState) (h : Reachable st) : GoodState st := by
  induction h with
  | boot o st hc =>
    obtain ⟨-, hst⟩ := constructor_ok zeroState o st hc
    subst hst
    refine ⟨List.nodup_nil, List.nodup_nil, List.nodup_nil, ?_, ?_, ?_, ?_, ?_, ?_,
      rfl, rfl, rfl⟩ <;>
      first
        | exact fun p hp => absurd hp (List.not_mem_nil p)
        | exact U256MOD_pos
  | next st op st' hst hstep ih => exact ledgerStep_good st op st' ih hstep

/-! ### Repeated set_greeting lemmas -/

theorem applyGreetings_total (calls : List (Address × Nat × String)) :
    ∀ st : YCState, st.total_counter < U256MOD →
      (applyGreetings st calls).total_counter
        = (st.total_counter + calls.length) % U256MOD := by
  induction calls with
  | nil => intro st h; simp [applyGreetings, Nat.mod_eq_of_lt h]
  | cons c rest ih =>
    intro st h
    rw [applyGreetings, ih (YourContract.set_greeting st c.1 c.2.1 c.2.2).1 (uadd_lt _ _)]
    show (uadd st.total_counter 1 + rest.length) % U256MOD
      = (st.total_counter + (c :: rest).length) % U256MOD
    rw [uadd_eq, Nat.mod_add_mod, List.length_cons]
    congr 1
    omega

theorem applyGreetings_user (calls : List (Address × Nat × String)) :
    ∀ (st : YCState) (a : Address), mapGet st.user_greeting_counter a < U256MOD →
      mapGet (applyGreetings st calls).user_greeting_counter a
        = (mapGet st.user_greeting_counter a + callsBy a calls) % U256MOD := by
  induction calls with
  | nil => intro st a h; simp [applyGreetings, callsBy, Nat.mod_eq_of_lt h]
  | cons c rest ih =>
    intro st a h
    rw [applyGreetings]
    by_cases hc : c.1 = a
    · have hmg : mapGet (YourContract.set_greeting st c.1 c.2.1 c.2.2).1.user_greeting_counter a
          = uadd (mapGet st.user_greeting_counter a) 1 := by
        show mapGet (mapInsert st.user_greeting_counter c.1
          (uadd (mapGet st.user_greeting_counter c.1) 1)) a = _
        rw [hc, mapGet_mapInsert_self]
      have hcb : callsBy a (c :: rest) = callsBy a rest + 1 := by
        simp [callsBy, List.filter_cons, hc]
      rw [ih _ a (by rw [hmg]; exact uadd_lt _ _), hmg, hcb, uadd_eq, Nat.mod_add_mod]
      congr 1
      omega
    · have hmg : mapGet (YourContract.set_greeting st c.1 c.2.1 c.2.2).1.user_greeting_counter a
          = mapGet st.user_greeting_counter a := by
        show mapGet (mapInsert st.user_greeting_counter c.1
          (uadd (mapGet st.user_greeting_counter c.1) 1)) a = _
        exact mapGet_mapInsert_ne _ _ _ _ (fun he => hc he.symm)
      have hcb : callsBy a (c :: rest) = callsBy a rest := by
        simp [callsBy, List.filter_cons, hc]
      rw [ih _ a (by rw [hmg]; exact h), hmg, hcb]

theorem applyGreetings_last (calls : List (Address × Nat × String)) :
    ∀ (st : YCState) (c : Address × Nat × String), calls.getLast? = some c →
      (applyGreetings st calls).greeting = c.2.2 ∧
      (applyGreetings st calls).premium = decide (0 < c.2.1) := by
  induction calls with
  | nil => intro st c h; cases h
  | cons c0 rest ih =>
    intro st c h
    cases rest with
    | nil =>
      simp only [List.getLast?_singleton, Option.some.injEq] at h
      subst h
      simp [applyGreetings, YourContract.set_greeting]
    | cons c1 rest' =>
      rw [List.getLast?_cons_cons] at h
      rw [applyGreetings]
      exact ih _ c h

/-! ### Portfolio-reader lemmas -/

theorem get_token_balance_eq (env : TokenEnv) (token user : Address) :
    PortfolioReader.get_token_balance env token user
      = Except.ok ((env.balanceOfRes token user).getD 0) := by
  cases h : env.balanceOfRes token user <;>
    simp [PortfolioReader.get_token_balance, h]

theorem get_token_decimals_eq (env : TokenEnv) (token : Address) :
    PortfolioReader.get_token_decimals env token
      = Except.ok ((env.decimalsRes token).getD 18) := by
  cases h : env.decimalsRes token <;>
    simp [PortfolioReader.get_token_decimals, h]

theorem get_token_symbol_eq (env : TokenEnv) (token : Address) :
    PortfolioReader.get_token_symbol env token
      = Except.ok ((env.symbolRes token).getD ("UNKNOWN")) := by
  cases h : env.symbolRes token <;>
    simp [PortfolioReader.get_token_symbol, h]

theorem get_token_name_eq (env : TokenEnv) (token : Address) :
    PortfolioReader.get_token_name env token
      = Except.ok ((env.nameRes token).getD ("Unknown Token")) := by
  cases h : env.nameRes token <;>
    simp [PortfolioReader.get_token_name, h]

theorem batch_get_balances_eq (env : TokenEnv) (user : Address) :
    ∀ tokens : List Address,
      PortfolioReader.batch_get_balances env tokens user
        = tokens.map (fun t => (env.balanceOfRes t user).getD 0) := by
  intro tokens
  induction tokens with
  | nil => rfl
  | cons t rest ih =>
    simp [PortfolioReader.batch_get_balances, get_token_balance_eq, ih]

theorem batch_get_token_info_eq (env : TokenEnv) (user : Address) :
    ∀ tokens : List Address,
      PortfolioReader.batch_get_token_info env tokens user
        = tokens.map (fun t => fallbackInfo env user t) := by
  intro tokens
  induction tokens with
  | nil => rfl
  | cons t rest ih =>
    simp [PortfolioReader.batch_get_token_info, get_token_balance_eq,
      get_token_decimals_eq, get_token_symbol_eq, get_token_name_eq, ih,
      fallbackInfo]

theorem get_portfolio_loop_eq (env : TokenEnv) (user : Address) :
    ∀ tokens : List Address,
      PortfolioReader.get_portfolio.get_portfolio_loop env tokens user
        = tokens.zip (PortfolioReader.batch_get_token_info env tokens user) := by
  intro tokens
  induction tokens with
  | nil => rfl
  | cons t rest ih =>
    simp only [PortfolioReader.get_portfolio.get_portfolio_loop,
      PortfolioReader.batch_get_token_info, List.zip_cons_cons, ih]

/-! ### Claim theorems -/

/-- C1: the transfer-on-behalf (`transferFrom`) call payload built by
    `send_erc20_individual` and `send_erc20_batch` is exactly 100 bytes:
    bytes [0:4] are the selector `0x23b872dd`, bytes [4:36] the sender
    address right-aligned with 12 high zero bytes, bytes [36:68] the
    recipient address right-aligned with 12 high zero bytes, and bytes
    [68:100] the amount in 32-byte big-endian form; both entrypoints attach
    exactly this payload to every raw call they issue, so the same inputs
    always yield a byte-for-byte identical payload. -/
theorem spec_C1_transfer_payload (sender recipient : Address) (amount : Nat)
    (hs : sender.length = 20) (hr : recipient.length = 20)
    (ha : amount < U256MOD) :
    (YourContract.transferFromCalldata sender recipient amount).length = 100 ∧
    (YourContract.transferFromCalldata sender recipient amount).take 4
      = [0x23, 0xb8, 0x72, 0xdd] ∧
    ((YourContract.transferFromCalldata sender recipient amount).drop 4).take 32
      = List.replicate 12 0 ++ sender ∧
    ((YourContract.transferFromCalldata sender recipient amount).drop 36).take 32
      = List.replicate 12 0 ++ recipient ∧
    (YourContract.transferFromCalldata sender recipient amount).drop 68
      = beBytes 32 amount ∧
    ((YourContract.transferFromCalldata sender recipient amount).drop 68).length
      = 32 ∧
    beValue ((YourContract.transferFromCalldata sender recipient amount).drop 68)
      = amount ∧
    (∀ (env : ChainEnv) (st : YCState) (token : Address),
      (YourContract.send_erc20_individual env st sender token recipient amount).2.2
        = [ExtCall.callContract token
            (YourContract.transferFromCalldata sender recipient amount)]) ∧
    (∀ (env : ChainEnv) (st : YCState) (token : Address)
        (recipients : List Address) (amounts : List Nat),
      recipients.length ≤ amounts.length →
      (YourContract.send_erc20_batch env st sender token recipients amounts).map
          (fun r => r.2.2)
        = some ((recipients.zip (amounts.take recipients.length)).map
            (fun p => ExtCall.callContract token
              (YourContract.transferFromCalldata sender p.1 p.2)))) := by
  have hA : (List.replicate 12 0 ++ sender).length = 32 := by simp [hs]
  have hB : (List.replicate 12 0 ++ recipient).length = 32 := by simp [hr]
  have hC : (beBytes 32 amount).length = 32 := beBytes_length 32 amount
  have hsel : ([0x23, 0xb8, 0x72, 0xdd] : List Nat).length = 4 := rfl
  have hshape : YourContract.transferFromCalldata sender recipient amount
      = [0x23, 0xb8, 0x72, 0xdd]
        ++ ((List.replicate 12 0 ++ sender)
          ++ ((List.replicate 12 0 ++ recipient) ++ beBytes 32 amount)) := by
    rw [YourContract.transferFromCalldata, List.append_assoc, List.append_assoc]
  have e4 : (YourContract.transferFromCalldata sender recipient amount).drop 4
      = (List.replicate 12 0 ++ sender)
        ++ ((List.replicate 12 0 ++ recipient) ++ beBytes 32 amount) := by
    rw [hshape]
    exact List.drop_left' hsel
  have e36 : (YourContract.transferFromCalldata sender recipient amount).drop 36
      = (List.replicate 12 0 ++ recipient) ++ beBytes 32 amount := by
    have hd : (YourContract.transferFromCalldata sender recipient amount).drop 36
        = ((YourContract.transferFromCalldata sender recipient amount).drop 4).drop 32 := by
      rw [List.drop_drop]
    rw [hd, e4]
    exact List.drop_left' hA
  have e68 : (YourContract.transferFromCalldata sender recipient amount).drop 68
      = beBytes 32 amount := by
    have hd : (YourContract.transferFromCalldata sender recipient amount).drop 68
        = ((YourContract.transferFromCalldata sender recipient amount).drop 36).drop 32 := by
      rw [List.drop_drop]
    rw [hd, e36]
    exact List.drop_left' hB
  refine ⟨?_, ?_, ?_, ?_, e68, ?_, ?_, ?_, ?_⟩
  · simp [YourContract.transferFromCalldata, hs, hr, beBytes_length]
  · rw [hshape]
    exact List.take_left' hsel
  · rw [e4]
    exact List.take_left' hA
  · rw [e36]
    exact List.take_left' hB
  · rw [e68, hC]
  · rw [e68, beValue_beBytes]
    have h256 : (256 : Nat) ^ 32 = U256MOD := by
      show (256 : Nat) ^ 32 = 2 ^ 256
      norm_num
    rw [h256]
    exact Nat.mod_eq_of_lt ha
  · intro env st token
    rfl
  · intro env st token recipients amounts hlen
    rw [send_erc20_batch_ok env st sender token recipients amounts hlen]
    rfl

theorem spec_C1_transfer_payload_witness :
    addr1.length = 20 ∧ addr2.length = 20 ∧ (5 : Nat) < U256MOD ∧
    (YourContract.transferFromCalldata addr1 addr2 5).length = 100 :=
  ⟨by decide, by decide, by norm_num [U256MOD],
    (spec_C1_transfer_payload addr1 addr2 5 (by decide) (by decide)
      (by norm_num [U256MOD])).1⟩

/-- C2 (amended): a batch call with more recipients than amounts fails with
    an out-of-bounds index panic (`none`: the call reverts, so no counter is
    mutated); but a batch call with fewer recipients than amounts does not
    fail — it succeeds, silently consuming only the first
    `recipients.length` amounts and updating the counters by their sum. -/
theorem spec_C2_batch_length (env : ChainEnv) (st : YCState)
    (sender token : Address) (recipients : List Address) (amounts : List Nat) :
    (amounts.length < recipients.length →
      YourContract.send_native_batch env st sender recipients amounts = none ∧
      YourContract.send_erc20_batch env st sender token recipients amounts = none) ∧
    (recipients.length ≤ amounts.length →
      (∃ r, YourContract.send_native_batch env st sender recipients amounts = some r ∧
        r.1.total_native_sent
          = (st.total_native_sent + (amounts.take recipients.length).sum) % U256MOD) ∧
      (∃ r, YourContract.send_erc20_batch env st sender token recipients amounts = some r ∧
        r.1.total_erc20_sent
          = (st.total_erc20_sent + (amounts.take recipients.length).sum) % U256MOD)) := by
  constructor
  · intro hlt
    constructor
    · have hnone := nativeBatchLoop_none env recipients amounts 0 0 (by omega) (by omega)
      simp [YourContract.send_native_batch, hnone]
    · have hnone := erc20BatchLoop_none env token sender recipients amounts 0 0
        (by omega) (by omega)
      simp [YourContract.send_erc20_batch, hnone]
  · intro hle
    constructor
    · exact ⟨_, send_native_batch_ok env st sender recipients amounts hle, rfl⟩
    · exact ⟨_, send_erc20_batch_ok env st sender token recipients amounts hle, rfl⟩

theorem spec_C2_batch_length_witness :
    YourContract.send_native_batch allOkEnv ctorState addr1 [addr2, addr3] [5] = none ∧
    (∃ r, YourContract.send_native_batch allOkEnv ctorState addr1 [addr2] [1, 2]
        = some r ∧
      r.1.total_native_sent
        = (ctorState.total_native_sent + ([1, 2].take 1).sum) % U256MOD) :=
  ⟨((spec_C2_batch_length allOkEnv ctorState addr1 addr1 [addr2, addr3] [5]).1
      (by decide)).1,
   ((spec_C2_batch_length allOkEnv ctorState addr1 addr1 [addr2] [1, 2]).2
      (by decide)).1⟩

/-- C2 counterexample: recipients `[addr2]` and amounts `[1, 2]` have
    different lengths, yet `sendNativeBatch` does not fail with a bounds
    error: it succeeds and mutates `totalNativeSent` (to 1). -/
theorem spec_C2_counterexample :
    List.length [addr2] ≠ List.length ([1, 2] : List Nat) ∧
    (YourContract.send_native_batch allOkEnv ctorState addr1 [addr2] [1, 2]).map
        (fun r => r.1.total_native_sent) = some 1 := by
  constructor
  · decide
  · decide

/-- C3: for equal-length batches of length k the batch succeeds, adds
    `sum(amounts)` to the total and to the caller's per-caller counter in the
    wrapping 256-bit domain — an exact increase whenever no 256-bit overflow
    occurs — as one single post-loop update (the loop itself touches no
    counter), and emits exactly one aggregate event whose `recipientCount`
    equals k. -/
theorem spec_C3_batch_totals (env : ChainEnv) (st : YCState)
    (sender token : Address) (recipients : List Address) (amounts : List Nat)
    (k : Nat) (hlen : recipients.length = amounts.length)
    (hk : k = recipients.length) :
    (∀ r, YourContract.send_native_batch env st sender recipients amounts = some r →
      r.1.total_native_sent = (st.total_native_sent + amounts.sum) % U256MOD ∧
      (st.total_native_sent + amounts.sum < U256MOD →
        r.1.total_native_sent = st.total_native_sent + amounts.sum) ∧
      mapGet r.1.user_native_sent sender
        = (mapGet st.user_native_sent sender + amounts.sum) % U256MOD ∧
      (mapGet st.user_native_sent sender + amounts.sum < U256MOD →
        mapGet r.1.user_native_sent sender
          = mapGet st.user_native_sent sender + amounts.sum) ∧
      r.2.1 = [Event.batchNativeTokenSent sender (amounts.sum % U256MOD) k]) ∧
    (∃ r, YourContract.send_native_batch env st sender recipients amounts = some r) ∧
    (∀ r, YourContract.send_erc20_batch env st sender token recipients amounts
        = some r →
      r.1.total_erc20_sent = (st.total_erc20_sent + amounts.sum) % U256MOD ∧
      (st.total_erc20_sent + amounts.sum < U256MOD →
        r.1.total_erc20_sent = st.total_erc20_sent + amounts.sum) ∧
      mapGet r.1.user_erc20_sent sender
        = (mapGet st.user_erc20_sent sender + amounts.sum) % U256MOD ∧
      (mapGet st.user_erc20_sent sender + amounts.sum < U256MOD →
        mapGet r.1.user_erc20_sent sender
          = mapGet st.user_erc20_sent sender + amounts.sum) ∧
      r.2.1 = [Event.batchErc20TokenSent token sender (amounts.sum % U256MOD) k]) ∧
    (∃ r, YourContract.send_erc20_batch env st sender token recipients amounts
      = some r) := by
  subst hk
  have htake : amounts.take recipients.length = amounts := by
    rw [hlen]
    exact List.take_length amounts
  have hokN := send_native_batch_ok env st sender recipients amounts (le_of_eq hlen)
  have hokE := send_erc20_batch_ok env st sender token recipients amounts (le_of_eq hlen)
  rw [htake] at hokN hokE
  refine ⟨?_, ⟨_, hokN⟩, ?_, ⟨_, hokE⟩⟩
  · intro r hr
    rw [hokN, Option.some.injEq] at hr
    subst hr
    refine ⟨rfl, fun hov => Nat.mod_eq_of_lt hov, ?_, ?_, rfl⟩
    · exact mapGet_mapInsert_self _ _ _
    · intro hov
      rw [mapGet_mapInsert_self]
      exact Nat.mod_eq_of_lt hov
  · intro r hr
    rw [hokE, Option.some.injEq] at hr
    subst hr
    refine ⟨rfl, fun hov => Nat.mod_eq_of_lt hov, ?_, ?_, rfl⟩
    · exact mapGet_mapInsert_self _ _ _
    · intro hov
      rw [mapGet_mapInsert_self]
      exact Nat.mod_eq_of_lt hov

theorem spec_C3_batch_totals_witness :
    List.length [addr2] = List.length ([7] : List Nat) ∧
    (∃ r, YourContract.send_native_batch allOkEnv ctorState addr1 [addr2] [7]
      = some r) :=
  ⟨by decide,
    (spec_C3_batch_totals allOkEnv ctorState addr1 addr1 [addr2] [7] 1
      (by decide) (by decide)).2.1⟩

/-- C4: none of the transfer entrypoints surfaces the outcome of the
    underlying external transfer call.  For every environment — hence for
    every success/failure outcome of `transfer_eth` and of the raw ERC-20
    call — each operation produces exactly the result it produces under an
    environment where every external call fails: the full requested amounts
    are added to the totals and per-caller counters and the success event is
    emitted; `withdraw` called by the owner returns `Ok` with the state
    unchanged for every outcome of its transfer. -/
theorem spec_C4_swallowed_failures (env : ChainEnv) (st : YCState)
    (sender token recipient : Address) (amount : Nat)
    (recipients : List Address) (amounts : List Nat)
    (hlen : recipients.length ≤ amounts.length) :
    YourContract.send_native_individual env st sender recipient amount
      = YourContract.send_native_individual allFailEnv st sender recipient amount ∧
    (YourContract.send_native_individual env st sender recipient
        amount).1.total_native_sent
      = (st.total_native_sent + amount) % U256MOD ∧
    mapGet (YourContract.send_native_individual env st sender recipient
        amount).1.user_native_sent sender
      = (mapGet st.user_native_sent sender + amount) % U256MOD ∧
    (YourContract.send_native_individual env st sender recipient amount).2.1
      = [Event.nativeTokenSent sender recipient amount] ∧
    YourContract.send_erc20_individual env st sender token recipient amount
      = YourContract.send_erc20_individual allFailEnv st sender token recipient amount ∧
    (YourContract.send_erc20_individual env st sender token recipient
        amount).1.total_erc20_sent
      = (st.total_erc20_sent + amount) % U256MOD ∧
    mapGet (YourContract.send_erc20_individual env st sender token recipient
        amount).1.user_erc20_sent sender
      = (mapGet st.user_erc20_sent sender + amount) % U256MOD ∧
    (YourContract.send_erc20_individual env st sender token recipient amount).2.1
      = [Event.erc20TokenSent token sender recipient amount] ∧
    YourContract.send_native_batch env st sender recipients amounts
      = YourContract.send_native_batch allFailEnv st sender recipients amounts ∧
    (YourContract.send_native_batch env st sender recipients amounts).isSome
      = true ∧
    YourContract.send_erc20_batch env st sender token recipients amounts
      = YourContract.send_erc20_batch allFailEnv st sender token recipients amounts ∧
    (YourContract.send_erc20_batch env st sender token recipients amounts).isSome
      = true ∧
    (sender = st.owner →
      ∃ tr, YourContract.withdraw env st sender = Except.ok (st, tr)) := by
  have hokN := send_native_batch_ok env st sender recipients amounts hlen
  have hokNf := send_native_batch_ok allFailEnv st sender recipients amounts hlen
  have hokE := send_erc20_batch_ok env st sender token recipients amounts hlen
  have hokEf := send_erc20_batch_ok allFailEnv st sender token recipients amounts hlen
  refine ⟨rfl, rfl, mapGet_mapInsert_self _ _ _, rfl, rfl, rfl,
    mapGet_mapInsert_self _ _ _, rfl, hokN.trans hokNf.symm, ?_,
    hokE.trans hokEf.symm, ?_, ?_⟩
  · rw [hokN]
    rfl
  · rw [hokE]
    rfl
  · intro hs
    by_cases hb : 0 < env.balance env.contractAddress
    · exact ⟨[ExtCall.transferEth st.owner (env.balance env.contractAddress)],
        by simp [YourContract.withdraw, if_pos hs, if_pos hb]⟩
    · exact ⟨[], by simp [YourContract.withdraw, if_pos hs, if_neg hb]⟩

theorem spec_C4_swallowed_failures_witness :
    List.length [addr2] ≤ List.length ([4] : List Nat) ∧
    (YourContract.send_native_individual allFailEnv ctorState addr1 addr2
        3).1.total_native_sent
      = (ctorState.total_native_sent + 3) % U256MOD :=
  ⟨by decide,
    (spec_C4_swallowed_failures allFailEnv ctorState addr1 addr1 addr2 3 [addr2] [4]
      (by decide)).2.1⟩

/-- C5: the portfolio-reader getters never return an error to the caller:
    each returns `Ok` of the queried value, with fallback balance 0 /
    decimals 18 / symbol "UNKNOWN" / name "Unknown Token" when the external
    view call fails; every element of `batchGetBalances` and
    `batchGetTokenInfo` is independently defaulted the same way, so a failing
    token never aborts the enclosing batch, and the batch outputs preserve
    input order (element i is the result for input token i). -/
theorem spec_C5_reader_fallbacks (env : TokenEnv) (token user : Address)
    (tokens : List Address) :
    PortfolioReader.get_token_balance env token user
      = Except.ok ((env.balanceOfRes token user).getD 0) ∧
    PortfolioReader.get_token_decimals env token
      = Except.ok ((env.decimalsRes token).getD 18) ∧
    PortfolioReader.get_token_symbol env token
      = Except.ok ((env.symbolRes token).getD ("UNKNOWN")) ∧
    PortfolioReader.get_token_name env token
      = Except.ok ((env.nameRes token).getD ("Unknown Token")) ∧
    (env.balanceOfRes token user = none →
      PortfolioReader.get_token_balance env token user = Except.ok 0) ∧
    (env.decimalsRes token = none →
      PortfolioReader.get_token_decimals env token = Except.ok 18) ∧
    (env.symbolRes token = none →
      PortfolioReader.get_token_symbol env token = Except.ok ("UNKNOWN")) ∧
    (env.nameRes token = none →
      PortfolioReader.get_token_name env token = Except.ok ("Unknown Token")) ∧
    PortfolioReader.batch_get_balances env tokens user
      = tokens.map (fun t => (env.balanceOfRes t user).getD 0) ∧
    PortfolioReader.batch_get_token_info env tokens user
      = tokens.map (fun t => fallbackInfo env user t) ∧
    ((env.balanceOfRes token user = none ∧ env.decimalsRes token = none ∧
        env.symbolRes token = none ∧ env.nameRes token = none) →
      ∀ rest : List Address,
        PortfolioReader.batch_get_token_info env (token :: rest) user
          = (0, 18, ("UNKNOWN"), ("Unknown Token"))
              :: PortfolioReader.batch_get_token_info env rest user) := by
  refine ⟨get_token_balance_eq env token user, get_token_decimals_eq env token,
    get_token_symbol_eq env token, get_token_name_eq env token, ?_, ?_, ?_, ?_,
    batch_get_balances_eq env user tokens, batch_get_token_info_eq env user tokens,
    ?_⟩
  · intro h
    rw [get_token_balance_eq, h]
    rfl
  · intro h
    rw [get_token_decimals_eq, h]
    rfl
  · intro h
    rw [get_token_symbol_eq, h]
    rfl
  · intro h
    rw [get_token_name_eq, h]
    rfl
  · rintro ⟨h1, h2, h3, h4⟩ rest
    rw [batch_get_token_info_eq, batch_get_token_info_eq, List.map_cons,
      fallbackInfo, h1, h2, h3, h4]
    rfl

theorem spec_C5_reader_fallbacks_witness :
    emptyTokenEnv.balanceOfRes addr1 addr2 = none ∧
    PortfolioReader.get_token_balance emptyTokenEnv addr1 addr2 = Except.ok 0 :=
  ⟨rfl, (spec_C5_reader_fallbacks emptyTokenEnv addr1 addr2 [addr1]).2.2.2.2.1 rfl⟩

/-- C6 (amended): in every reachable state, `totalLabelChanges`,
    `totalNativeSent` and `totalTokenSent` each equal the sum over all keys
    of the corresponding per-caller mapping computed in the wrapping 256-bit
    domain (i.e. modulo 2^256); and across every operation no total and no
    per-caller counter decreases PROVIDED the operation's 256-bit counter
    addition does not overflow — with an overflowing addition the counter
    wraps and can decrease, so the unqualified "never decreases" fails (see
    the counterexample). -/
theorem spec_C6_counter_invariants (st : YCState) (h : Reachable st) :
    st.total_counter = sumOverKeys st.user_greeting_counter % U256MOD ∧
    st.total_native_sent = sumOverKeys st.user_native_sent % U256MOD ∧
    st.total_erc20_sent = sumOverKeys st.user_erc20_sent % U256MOD ∧
    (∀ (op : LedgerOp) (st' : YCState), ledgerStep st op = some st' →
      (st.total_counter + greetingDelta op < U256MOD →
        st.total_counter ≤ st'.total_counter) ∧
      (st.total_native_sent + nativeDelta op < U256MOD →
        st.total_native_sent ≤ st'.total_native_sent) ∧
      (st.total_erc20_sent + erc20Delta op < U256MOD →
        st.total_erc20_sent ≤ st'.total_erc20_sent) ∧
      (∀ a : Address,
        mapGet st.user_greeting_counter a + greetingDelta op < U256MOD →
        mapGet st.user_greeting_counter a ≤ mapGet st'.user_greeting_counter a) ∧
      (∀ a : Address,
        mapGet st.user_native_sent a + nativeDelta op < U256MOD →
        mapGet st.user_native_sent a ≤ mapGet st'.user_native_sent a) ∧
      (∀ a : Address,
        mapGet st.user_erc20_sent a + erc20Delta op < U256MOD →
        mapGet st.user_erc20_sent a ≤ mapGet st'.user_erc20_sent a)) := by
  obtain ⟨hn1, hn2, hn3, hl1, hl2, hl3, ht1, ht2, ht3, hs1, hs2, hs3⟩ :=
    reachable_good st h
  refine ⟨by rw [sumOverKeys_eq_mapValuesSum _ hn1]; exact hs1,
    by rw [sumOverKeys_eq_mapValuesSum _ hn2]; exact hs2,
    by rw [sumOverKeys_eq_mapValuesSum _ hn3]; exact hs3, ?_⟩
  intro op st' hstep
  obtain ⟨hf1, hf2, hf3⟩ := ledgerStep_family st op st' hstep
  obtain ⟨m1t, m1m⟩ := familyStep_mono _ _ _ _ _ hf1
  obtain ⟨m2t, m2m⟩ := familyStep_mono _ _ _ _ _ hf2
  obtain ⟨m3t, m3m⟩ := familyStep_mono _ _ _ _ _ hf3
  exact ⟨m1t, m2t, m3t, m1m, m2m, m3m⟩

theorem spec_C6_counter_invariants_witness :
    ctorState.total_counter = sumOverKeys ctorState.user_greeting_counter % U256MOD :=
  (spec_C6_counter_invariants ctorState
    (Reachable.boot addr1 ctorState (by rfl))).1

/-- C6 counterexample: a counter CAN decrease across an operation.  From a
    fresh deployment owned by `addr1`, `sendNativeSingle(addr2, 2^256 - 1)`
    reaches `stWrapA` with `totalNativeSent = 2^256 - 1`; the further public
    call `sendNativeSingle(addr2, 1)` steps to `stWrapB`, whose
    `totalNativeSent` is 0 — strictly smaller. -/
theorem spec_C6_counterexample :
    Reachable stWrapA ∧
    ledgerStep stWrapA (LedgerOp.nativeSingle addr1 addr2 1 allOkEnv)
      = some stWrapB ∧
    stWrapB.total_native_sent < stWrapA.total_native_sent := by
  refine ⟨Reachable.next ctorState
      (LedgerOp.nativeSingle addr1 addr2 (U256MOD - 1) allOkEnv) stWrapA
      (Reachable.boot addr1 ctorState (by rfl)) rfl, rfl, ?_⟩
  decide

/-- C7: `getPortfolio(tokens, account)` is exactly the ETH balance paired
    with the input token addresses zipped against the tuples of
    `batchGetTokenInfo(tokens, account)` — one output tuple per input token,
    in input order. -/
theorem spec_C7_get_portfolio (env : TokenEnv) (tokens : List Address)
    (user : Address) :
    PortfolioReader.get_portfolio env tokens user
      = (PortfolioReader.get_eth_balance env user,
         tokens.zip (PortfolioReader.batch_get_token_info env tokens user)) := by
  unfold PortfolioReader.get_portfolio
  rw [get_portfolio_loop_eq]

/-- C8: from a fresh deployment, after any sequence of n `set_greeting`
    calls (n below 2^256) with attached values and labels,
    `totalLabelChanges` equals n, each caller's per-caller entry equals the
    number of calls that caller made, the stored label is the argument of
    the last call, and the premium flag equals (value of last call > 0). -/
theorem spec_C8_greeting_sequence (o : Address) (st0 : YCState)
    (calls : List (Address × Nat × String))
    (hctor : YourContract.constructor zeroState o = Except.ok st0)
    (hn : calls.length < U256MOD) :
    (applyGreetings st0 calls).total_counter = calls.length ∧
    (∀ a : Address,
      mapGet (applyGreetings st0 calls).user_greeting_counter a = callsBy a calls) ∧
    (∀ c, calls.getLast? = some c →
      (applyGreetings st0 calls).greeting = c.2.2 ∧
      (applyGreetings st0 calls).premium = decide (0 < c.2.1)) := by
  obtain ⟨-, hst⟩ := constructor_ok zeroState o st0 hctor
  subst hst
  refine ⟨?_, ?_, fun c hc => applyGreetings_last calls _ c hc⟩
  · rw [applyGreetings_total calls _ (by exact U256MOD_pos)]
    show (0 + calls.length) % U256MOD = calls.length
    rw [Nat.zero_add]
    exact Nat.mod_eq_of_lt hn
  · intro a
    rw [applyGreetings_user calls _ a (by exact U256MOD_pos)]
    show (0 + callsBy a calls) % U256MOD = callsBy a calls
    rw [Nat.zero_add]
    have hfil : callsBy a calls ≤ calls.length := List.length_filter_le _ calls
    exact Nat.mod_eq_of_lt (lt_of_le_of_lt hfil hn)

theorem spec_C8_greeting_sequence_witness :
    YourContract.constructor zeroState addr1 = Except.ok ctorState ∧
    (applyGreetings ctorState [(addr1, 0, "A"), (addr2, 5, "B")]).total_counter
      = List.length [(addr1, (0 : Nat), "A"), (addr2, 5, "B")] :=
  ⟨by rfl,
    (spec_C8_greeting_sequence addr1 ctorState [(addr1, 0, "A"), (addr2, 5, "B")]
      (by rfl) (by decide)).1⟩

/-- C9 (amended): the counter updates use ruint's wrapping 256-bit addition:
    every counter-updating operation succeeds unconditionally and stores
    `(old + delta) mod 2^256`; on overflow the counter silently wraps
    instead of the operation failing (see the counterexample). -/
theorem spec_C9_wrapping_counters (env : ChainEnv) (st : YCState)
    (sender token recipient : Address) (amount msgValue : Nat) (g : String)
    (recipients : List Address) (amounts : List Nat)
    (hlen : recipients.length ≤ amounts.length) :
    (YourContract.set_greeting st sender msgValue g).1.total_counter
      = (st.total_counter + 1) % U256MOD ∧
    mapGet (YourContract.set_greeting st sender msgValue
        g).1.user_greeting_counter sender
      = (mapGet st.user_greeting_counter sender + 1) % U256MOD ∧
    (YourContract.send_native_individual env st sender recipient
        amount).1.total_native_sent
      = (st.total_native_sent + amount) % U256MOD ∧
    (YourContract.send_erc20_individual env st sender token recipient
        amount).1.total_erc20_sent
      = (st.total_erc20_sent + amount) % U256MOD ∧
    (YourContract.send_native_batch env st sender recipients amounts).map
        (fun r => r.1.total_native_sent)
      = some ((st.total_native_sent
          + (amounts.take recipients.length).sum) % U256MOD) ∧
    (YourContract.send_erc20_batch env st sender token recipients amounts).map
        (fun r => r.1.total_erc20_sent)
      = some ((st.total_erc20_sent
          + (amounts.take recipients.length).sum) % U256MOD) := by
  refine ⟨rfl, mapGet_mapInsert_self _ _ _, rfl, rfl, ?_, ?_⟩
  · rw [send_native_batch_ok env st sender recipients amounts hlen]
    rfl
  · rw [send_erc20_batch_ok env st sender token recipients amounts hlen]
    rfl

theorem spec_C9_wrapping_counters_witness :
    List.length [addr2] ≤ List.length ([4] : List Nat) ∧
    (YourContract.set_greeting ctorState addr1 0 ("hi")).1.total_counter
      = (ctorState.total_counter + 1) % U256MOD :=
  ⟨by decide,
    (spec_C9_wrapping_counters allOkEnv ctorState addr1 addr1 addr2 3 0 ("hi")
      [addr2] [4] (by decide)).1⟩

/-- C9 counterexample: at the reachable state `stWrapA` the native total is
    `2^256 - 1`, so adding the requested amount 1 exceeds the 256-bit
    domain; yet `sendNativeSingle` does not fail — it succeeds and the
    counter silently wraps to 0. -/
theorem spec_C9_counterexample :
    stWrapA.total_native_sent + 1 = U256MOD ∧
    (YourContract.send_native_individual allOkEnv stWrapA addr1 addr2
        1).1.total_native_sent = 0 := by
  constructor
  · decide
  · decide

/-- C10: immediately after `constructor(initialOwner)` succeeds on a fresh
    deployment, the label is the fixed string "Building Unstoppable
    Apps!!!", the premium flag is false, the three totals are zero, and
    every per-caller counter reads zero for every address. -/
theorem spec_C10_constructor_state (initial_owner : Address) (st : YCState)
    (h : YourContract.constructor zeroState initial_owner = Except.ok st) :
    st.greeting = "Building Unstoppable Apps!!!" ∧
    st.premium = false ∧
    st.total_counter = 0 ∧
    st.total_native_sent = 0 ∧
    st.total_erc20_sent = 0 ∧
    (∀ a : Address, mapGet st.user_greeting_counter a = 0 ∧
      mapGet st.user_native_sent a = 0 ∧ mapGet st.user_erc20_sent a = 0) := by
  obtain ⟨-, hst⟩ := constructor_ok zeroState initial_owner st h
  subst hst
  exact ⟨rfl, rfl, rfl, rfl, rfl, fun a => ⟨rfl, rfl, rfl⟩⟩

theorem spec_C10_constructor_state_witness :
    YourContract.constructor zeroState addr1 = Except.ok ctorState ∧
    ctorState.premium = false :=
  ⟨by rfl, (spec_C10_constructor_state addr1 ctorState (by rfl)).2.1⟩
